import Mathlib

/-
Verification of the tableimage core pipeline.

The development shallowly embeds the two source modules of the repository:

* `tableimage/data.py` — run-length row extraction over an abstract pixel
  surface (`PixelAccess.getcontiguousrows`) and the `RowDivider` sentinel
  with its custom `__eq__` / `__hash__`.
* `tableimage/__init__.py` — the generalized Huffman encoder `_encoding`,
  the palette weight aggregator `_to_palette`, the colour-to-hex converter
  `rgb_to_html`, and the markup emitter `rowlist_to_html_css`.

Python ints are modelled as `Int` (pixel channels) or `Nat` (counts,
lengths, sizes — all provably non-negative in context); Python `None` as
`Option.none`; code that can raise is modelled in `Except PyErr`.
-/

/-- The Python exceptions that the embedded code can raise. -/
inductive PyErr where
  | typeError
  | indexError
  | keyError
deriving DecidableEq

/-- An RGB triple, as in `data.py` (`RGB=Tuple[int, int, int]`).  Channels are
plain Python ints (they may lie outside `[0, 255]`; `rgb_to_html` clamps). -/
abbrev RGB := Int × Int × Int

/-- One element of the list produced by `PixelAccess.getcontiguousrows`:
either a `(pixel_count, curr_colour)` tuple or a `RowDivider()` instance.
The colour component is an `Option` because the source appends
`(pixel_count, curr_colour)` after each row even when the row had no pixels,
in which case `curr_colour` is still Python `None`. -/
inductive Item where
  | run (count : Nat) (colour : Option RGB)
  | divider
deriving DecidableEq

/-- A pixel surface: the `PixelAccess` capability of `data.py`,
`getsize() -> (w, h)` plus `getpixel(x, y)`. -/
structure Surface where
  w : Nat
  h : Nat
  pix : Nat → Nat → RGB

/-- The pixels of row `y`, left to right: `getpixel(0, y) .. getpixel(w-1, y)`.
This materializes the inner `for x in range(self.getsize()[0])` iteration. -/
def rowPixels (s : Surface) (y : Nat) : List RGB :=
  (List.range s.w).map (fun x => s.pix x y)

/-- Inner loop of `getcontiguousrows` after the first pixel of a row has been
seen: `curr` is `curr_colour`, `cnt` is `pixel_count`.  On a colour change the
source flushes `(pixel_count, curr_colour)` and restarts the counter at 1;
on equality it increments.  After the loop it flushes the final run and
appends a `RowDivider()`. -/
def runsAux (curr : RGB) (cnt : Nat) : List RGB → List Item
  | [] => [Item.run cnt (some curr), Item.divider]
  | c :: rest =>
      if c = curr then runsAux curr (cnt + 1) rest
      else Item.run cnt (some curr) :: runsAux c 1 rest

/-- One full row of `getcontiguousrows`.  With no pixels in the row the loop
body never runs, `curr_colour` is still `None` and `pixel_count` is `0`, and
the source still appends `(0, None)` and a `RowDivider()` unconditionally. -/
def rowToRuns : List RGB → List Item
  | [] => [Item.run 0 none, Item.divider]
  | c :: rest => runsAux c 1 rest

/-- The outer `for y in range(self.getsize()[1])` loop of
`getcontiguousrows`, appending each row's items in order. -/
def rowsConcat (s : Surface) : List Nat → List Item
  | [] => []
  | y :: ys => rowToRuns (rowPixels s y) ++ rowsConcat s ys

/-- `PixelAccess.getcontiguousrows` (default implementation, `data.py`). -/
def getcontiguousrows (s : Surface) : List Item :=
  rowsConcat s (List.range s.h)

/-- Expansion of one item back into pixels: a run of `n` copies of its colour;
a `RowDivider` (or a degenerate colour-less run) contributes no pixels. -/
def expandItem : Item → List RGB
  | Item.run n (some c) => List.replicate n c
  | Item.run _ none => []
  | Item.divider => []

/-- Expansion of an item list back into a pixel sequence. -/
def expandRuns : List Item → List RGB
  | [] => []
  | it :: rest => expandItem it ++ expandRuns rest

/-- Sum of the run counts in an item list (dividers contribute nothing). -/
def countsSum : List Item → Nat
  | [] => 0
  | Item.run n _ :: rest => n + countsSum rest
  | Item.divider :: rest => countsSum rest

/-- Number of `RowDivider` entries in an item list. -/
def dividerCount : List Item → Nat
  | [] => 0
  | Item.divider :: rest => dividerCount rest + 1
  | Item.run _ _ :: rest => dividerCount rest

theorem expandRuns_append (a b : List Item) :
    expandRuns (a ++ b) = expandRuns a ++ expandRuns b := by
  induction a with
  | nil => rfl
  | cons it rest ih => simp [expandRuns, ih]

theorem expandRuns_runsAux (rest : List RGB) :
    ∀ (curr : RGB) (cnt : Nat),
      expandRuns (runsAux curr cnt rest) = List.replicate cnt curr ++ rest := by
  induction rest with
  | nil =>
      intro curr cnt
      simp [runsAux, expandRuns, expandItem]
  | cons c rest ih =>
      intro curr cnt
      by_cases hc : c = curr
      · subst hc
        rw [runsAux, if_pos rfl, ih]
        rw [List.replicate_succ' cnt c, List.append_assoc]
        rfl
      · rw [runsAux, if_neg hc]
        simp [expandRuns, expandItem, ih]

theorem countsSum_runsAux (rest : List RGB) :
    ∀ (curr : RGB) (cnt : Nat),
      countsSum (runsAux curr cnt rest) = cnt + rest.length := by
  induction rest with
  | nil =>
      intro curr cnt
      simp [runsAux, countsSum]
  | cons c rest ih =>
      intro curr cnt
      by_cases hc : c = curr
      · subst hc
        rw [runsAux, if_pos rfl, ih]
        simp
        omega
      · rw [runsAux, if_neg hc, countsSum, ih]
        simp
        omega

theorem dividerCount_append (a b : List Item) :
    dividerCount (a ++ b) = dividerCount a + dividerCount b := by
  induction a with
  | nil => simp [dividerCount]
  | cons it rest ih =>
      cases it with
      | run n c => simp [dividerCount, ih]
      | divider => simp [dividerCount, ih]; omega

theorem dividerCount_runsAux (rest : List RGB) :
    ∀ (curr : RGB) (cnt : Nat), dividerCount (runsAux curr cnt rest) = 1 := by
  induction rest with
  | nil => intro curr cnt; rfl
  | cons c rest ih =>
      intro curr cnt
      by_cases hc : c = curr
      · subst hc; rw [runsAux, if_pos rfl]; exact ih _ _
      · rw [runsAux, if_neg hc]; simp [dividerCount, ih]

theorem dividerCount_rowToRuns (row : List RGB) :
    dividerCount (rowToRuns row) = 1 := by
  cases row with
  | nil => rfl
  | cons c rest => exact dividerCount_runsAux rest c 1

theorem runsAux_structure (rest : List RGB) :
    ∀ (curr : RGB) (cnt : Nat),
      ∃ pre, runsAux curr cnt rest = pre ++ [Item.divider] ∧ dividerCount pre = 0 := by
  induction rest with
  | nil =>
      intro curr cnt
      exact ⟨[Item.run cnt (some curr)], rfl, rfl⟩
  | cons c rest ih =>
      intro curr cnt
      by_cases hc : c = curr
      · subst hc
        rw [runsAux, if_pos rfl]
        exact ih _ _
      · obtain ⟨pre, hpre, hcount⟩ := ih c 1
        rw [runsAux, if_neg hc]
        exact ⟨Item.run cnt (some curr) :: pre, by rw [hpre]; rfl,
               by simpa [dividerCount] using hcount⟩

theorem rowToRuns_structure (row : List RGB) :
    ∃ pre, rowToRuns row = pre ++ [Item.divider] ∧ dividerCount pre = 0 := by
  cases row with
  | nil => exact ⟨[Item.run 0 none], rfl, rfl⟩
  | cons c rest => exact runsAux_structure rest c 1

theorem dividerCount_rowsConcat (s : Surface) (ys : List Nat) :
    dividerCount (rowsConcat s ys) = ys.length := by
  induction ys with
  | nil => rfl
  | cons y ys ih =>
      rw [rowsConcat, dividerCount_append, dividerCount_rowToRuns, ih,
        List.length_cons]
      omega

theorem rowPixels_length (s : Surface) (y : Nat) :
    (rowPixels s y).length = s.w := by
  simp [rowPixels]

/-- C4: for a surface of width `w ≥ 1`, each row `y < h` of
`getcontiguousrows`'s output (the `y`-th block of the concatenation over
`range h`) expands, run by run, back to exactly the pixel sequence
`getpixel(0,y) .. getpixel(w-1,y)`, and its run counts sum to `w`. -/
theorem claim_C4_row_roundtrip (s : Surface) (y : Nat)
    (hw : 1 ≤ s.w) (_hy : y < s.h) :
    getcontiguousrows s = rowsConcat s (List.range s.h) ∧
    expandRuns (rowToRuns (rowPixels s y)) = rowPixels s y ∧
    countsSum (rowToRuns (rowPixels s y)) = s.w := by
  have hlen : (rowPixels s y).length = s.w := rowPixels_length s y
  refine ⟨rfl, ?_, ?_⟩
  · cases hrow : rowPixels s y with
    | nil =>
        exfalso
        rw [hrow] at hlen
        simp at hlen
        omega
    | cons c rest =>
        rw [rowToRuns, expandRuns_runsAux]
        rfl
  · cases hrow : rowPixels s y with
    | nil =>
        exfalso
        rw [hrow] at hlen
        simp at hlen
        omega
    | cons c rest =>
        rw [hrow] at hlen
        rw [rowToRuns, countsSum_runsAux]
        simp at hlen
        omega

theorem claim_C4_witness :
    (1 ≤ (Surface.mk 2 1 (fun _ _ => ((0 : Int), (0 : Int), (0 : Int)))).w ∧
      0 < (Surface.mk 2 1 (fun _ _ => ((0 : Int), (0 : Int), (0 : Int)))).h) ∧
    (getcontiguousrows (Surface.mk 2 1 (fun _ _ => ((0 : Int), (0 : Int), (0 : Int)))) =
        rowsConcat (Surface.mk 2 1 (fun _ _ => ((0 : Int), (0 : Int), (0 : Int))))
          (List.range (Surface.mk 2 1 (fun _ _ => ((0 : Int), (0 : Int), (0 : Int)))).h) ∧
      expandRuns (rowToRuns (rowPixels (Surface.mk 2 1 (fun _ _ => ((0 : Int), (0 : Int), (0 : Int)))) 0)) =
        rowPixels (Surface.mk 2 1 (fun _ _ => ((0 : Int), (0 : Int), (0 : Int)))) 0 ∧
      countsSum (rowToRuns (rowPixels (Surface.mk 2 1 (fun _ _ => ((0 : Int), (0 : Int), (0 : Int)))) 0)) =
        (Surface.mk 2 1 (fun _ _ => ((0 : Int), (0 : Int), (0 : Int)))).w) :=
  ⟨⟨by decide, by decide⟩,
    claim_C4_row_roundtrip (Surface.mk 2 1 (fun _ _ => ((0 : Int), (0 : Int), (0 : Int)))) 0
      (by decide) (by decide)⟩

/-- C5: for every pixel surface, `getcontiguousrows` is the row-by-row
concatenation over `range h`, the number of `RowDivider` entries in its
output equals the image height, and every row block consists of a
divider-free run segment followed by exactly one `RowDivider` — including
the final row. -/
theorem claim_C5_divider_count (s : Surface) :
    getcontiguousrows s = rowsConcat s (List.range s.h) ∧
    dividerCount (getcontiguousrows s) = s.h ∧
    ∀ y, ∃ pre, rowToRuns (rowPixels s y) = pre ++ [Item.divider] ∧
      dividerCount pre = 0 := by
  refine ⟨rfl, ?_, fun y => rowToRuns_structure (rowPixels s y)⟩
  rw [getcontiguousrows, dividerCount_rowsConcat]
  exact List.length_range s.h

/-
Embedding of `tableimage/__init__.py`.
-/

/-- Deduplication of the alphabet, line 52 of `__init__.py`:
`alphabet = "".join(set(a for a in alphabet))`.  CPython's set iteration
order is hash-dependent; only the number of distinct symbols is ever
observable in the source (and, because of the bug modelled below, not even
that), so first-occurrence order is used here. -/
def dedupAux (seen : List Char) : List Char → List Char
  | [] => []
  | c :: rest =>
      if c ∈ seen then dedupAux seen rest
      else c :: dedupAux (c :: seen) rest

def dedup (l : List Char) : List Char := dedupAux [] l

/-- The generalized Huffman encoder `_encoding` of `__init__.py`
(lines 46-81).  `count` models the `dict.items()` list (distinct keys);
a node is modelled as its `(contents, _prefix)` pair, since no node ever
gains children before the failure described next.

The `while len(queue) > 1` body begins with
`queue = queue.sort(key=..., reverse=True)`: Python's `list.sort` sorts in
place and returns `None`, so this rebinds `queue` to `None`, and the very
next statement `if len(queue) > len(alphabet):` raises
`TypeError: object of type 'NoneType' has no len()`.  Hence the function
raises `TypeError` whenever the loop is entered, i.e. whenever `count` has
at least two entries; with zero or one entries the loop is skipped and the
mapping is read off the untouched leaf nodes, whose `_prefix` is still the
empty string. -/
def _encoding {κ : Type} (count : List (κ × Nat)) (alphabet : List Char) :
    Except PyErr (List (κ × String)) :=
  let _uniq := dedup alphabet
  let queue : List ((κ × String) × Nat) :=
    count.map (fun kv => ((kv.1, ""), kv.2))
  let leaf_nodes := queue.map (fun item => item.1)
  if 1 < queue.length then
    Except.error PyErr.typeError
  else
    Except.ok (leaf_nodes.map (fun node => (node.1, node.2)))

/-- One `count` dict update of `_to_palette` (lines 91-93):
`if not item[1] in count.keys(): count[item[1]] = 0` followed by
`count[item[1]] += item[0]`.  On the association-list view of a Python
dict this updates the entry in place when the key is present and appends
`(key, 0 + n)` otherwise (dicts preserve insertion order). -/
def addRun {κ : Type} [DecidableEq κ] : List (κ × Nat) → κ → Nat → List (κ × Nat)
  | [], k, n => [(k, n)]
  | p :: rest, k, n =>
      if p.1 = k then (p.1, p.2 + n) :: rest else p :: addRun rest k n

/-- The loop of `_to_palette` building the `count` dict: runs contribute
their count to their colour's entry, `RowDivider` entries are skipped. -/
def paletteStep (count : List (Option RGB × Nat)) (item : Item) :
    List (Option RGB × Nat) :=
  match item with
  | Item.divider => count
  | Item.run n col => addRun count col n

def paletteCount (rowlist : List Item) : List (Option RGB × Nat) :=
  rowlist.foldl paletteStep []

/-- `string.ascii_letters`. -/
def asciiLetters : List Char :=
  "abcdefghijklmnopqrstuvwxyzABCDEFGHIJKLMNOPQRSTUVWXYZ".toList

/-- `_to_palette` (lines 84-96): build the per-colour weight table from the
rowlist, then hand it to `_encoding` over `string.ascii_letters`. -/
def _to_palette (rowlist : List Item) :
    Except PyErr (List (Option RGB × String)) :=
  _encoding (paletteCount rowlist) asciiLetters

/-- Dict lookup on the association-list view (first matching key). -/
def lookupA {κ : Type} [DecidableEq κ] : List (κ × Nat) → κ → Option Nat
  | [], _ => none
  | p :: rest, k => if p.1 = k then some p.2 else lookupA rest k

/-- Total run count attributed to colour `k` across the whole rowlist. -/
def runCountTotal (k : Option RGB) : List Item → Nat
  | [] => 0
  | Item.run n c :: rest => (if k = c then n else 0) + runCountTotal k rest
  | Item.divider :: rest => runCountTotal k rest

/-- Whether colour `k` occurs in some run of the rowlist. -/
def appearsInRun (k : Option RGB) : List Item → Bool
  | [] => false
  | Item.run _ c :: rest => if k = c then true else appearsInRun k rest
  | Item.divider :: rest => appearsInRun k rest

/-- Python's `min(max(0, a), 255)` from `rgb_to_html` line 105. -/
def clamp255 (a : Int) : Int := min (max 0 a) 255

/-- A single lowercase hex digit. -/
def hexDigit (n : Nat) : Char :=
  if n < 10 then Char.ofNat (48 + n) else Char.ofNat (87 + n)

/-- Python's `hex(component)[2:]` for `0 ≤ component ≤ 255`: one or two
lowercase hex digits, with NO zero padding (`hex(0)[2:] == "0"`,
`hex(10)[2:] == "a"`). -/
def pyHex (n : Nat) : List Char :=
  if n < 16 then [hexDigit n] else [hexDigit (n / 16), hexDigit (n % 16)]

/-- Python string indexing `s[i]` for a non-negative index: `IndexError`
when out of range. -/
def pyIndex (l : List Char) (i : Nat) : Except PyErr Char :=
  match l.get? i with
  | some c => Except.ok c
  | none => Except.error PyErr.indexError

/-- The generator consumed by `all(...)` on line 107 of `__init__.py`:
`htmlcolour[2*i + 1] == htmlcolour[2*i+2] for i in range(3)`, evaluated
lazily left to right, so `all` stops at the first `False` and an
`IndexError` is raised only if reached before such a mismatch. -/
def allDoubledAux (h : List Char) : List Nat → Except PyErr Bool
  | [] => Except.ok true
  | i :: rest =>
      match pyIndex h (2 * i + 1) with
      | Except.error e => Except.error e
      | Except.ok a =>
          match pyIndex h (2 * i + 2) with
          | Except.error e => Except.error e
          | Except.ok b =>
              if a = b then allDoubledAux h rest else Except.ok false

def allDoubled (h : List Char) : Except PyErr Bool :=
  allDoubledAux h [0, 1, 2]

/-- `rgb_to_html` (lines 99-109): clamp each channel to `[0, 255]`, render
each with unpadded `hex(...)[2:]`, and shorten `#xyzxyz`-shaped results to
three digits when all three index pairs `(1,2) (3,4) (5,6)` hold equal
characters.  In the shortening branch indices 1, 3 and 5 are always in
range because index 6 was just read successfully, so the `getD` defaults
are unreachable. -/
def rgb_to_html (colour : RGB) : Except PyErr String :=
  let r := (clamp255 colour.1).toNat
  let g := (clamp255 colour.2.1).toNat
  let b := (clamp255 colour.2.2).toNat
  let h : List Char := '#' :: (pyHex r ++ pyHex g ++ pyHex b)
  match allDoubled h with
  | Except.error e => Except.error e
  | Except.ok true =>
      Except.ok (String.mk ['#', h.getD 1 ' ', h.getD 3 ' ', h.getD 5 ' '])
  | Except.ok false => Except.ok (String.mk h)

/-- `rgb_to_html` as called with a possibly-`None` colour (the degenerate
`(0, None)` run of an empty row): iterating `None` in
`tuple(min(max(0, a), 255) for a in colour)` raises `TypeError`. -/
def rgbOpt_to_html : Option RGB → Except PyErr String
  | none => Except.error PyErr.typeError
  | some c => rgb_to_html c

/-
The markup emitter `rowlist_to_html_css` (lines 112-192).  The 16 random
ascii letters drawn for `table_unique_id` in the CSS branch are passed in
as the explicit parameter `uid` (the source's only use of randomness).
-/

/-- One iteration of the row-grouping loop (lines 128-136).  Faithful to the
source bug: `currow = []` stands INSIDE the `for` loop, so the row being
accumulated is thrown away at the start of every iteration; every row pushed
onto `page_rows` is therefore the freshly created empty list, and run items
are appended to a list that the next iteration discards.  The comparison
`subrow == data.RowDivider()` dispatches to `RowDivider.__eq__`
(`isinstance`), which is exactly equality with `Item.divider` here. -/
def pageRowsStep (st : List (List Item) × List Item) (subrow : Item) :
    List (List Item) × List Item :=
  let currow : List Item := []
  if subrow = Item.divider then (st.1 ++ [currow], [])
  else (st.1, currow ++ [subrow])

def pageRows (rowlist : List Item) : List (List Item) :=
  (rowlist.foldl pageRowsStep ([], [])).1

/-- One `<td>` of the `no_css` branch (lines 147-156).  A `RowDivider` in a
row would fail the `count, colour = colour_row` unpacking with `TypeError`.
The `colspan` attribute is emitted exactly when `count > 1`, and the inline
width is `count * pixel_size`. -/
def tdNoCss (psize : Nat) (item : Item) : Except PyErr String :=
  match item with
  | Item.divider => Except.error PyErr.typeError
  | Item.run count colour =>
      match rgbOpt_to_html colour with
      | Except.error e => Except.error e
      | Except.ok col =>
          if count ≤ 1 then
            Except.ok ("<td style=\"background:" ++ col ++ ";width:"
              ++ toString (count * psize) ++ "px;\"/>\n")
          else
            Except.ok ("<td style=\"background:" ++ col ++ ";width:"
              ++ toString (count * psize) ++ "px;\" colspan=\""
              ++ toString count ++ "\"/>\n")

/-- One `<tr>` of the `no_css` branch (lines 146-158). -/
def renderRowNoCss (psize : Nat) (row : List Item) : Except PyErr String :=
  match row.mapM (tdNoCss psize) with
  | Except.error e => Except.error e
  | Except.ok cells =>
      Except.ok ("<tr style=\"line-height:" ++ toString psize ++ "px;\">\n"
        ++ String.join cells ++ "</tr>\n")

/-- Dict lookup `palette[colour]` (line 171): `KeyError` when absent. -/
def lookupS {κ : Type} [DecidableEq κ] : List (κ × String) → κ → Option String
  | [], _ => none
  | p :: rest, k => if p.1 = k then some p.2 else lookupS rest k

/-- One `<td>` of the CSS branch (lines 169-179). -/
def tdCss (palette : List (Option RGB × String)) (psize : Nat) (item : Item) :
    Except PyErr String :=
  match item with
  | Item.divider => Except.error PyErr.typeError
  | Item.run count colour =>
      match lookupS palette colour with
      | none => Except.error PyErr.keyError
      | some clazz =>
          if count ≤ 1 then
            Except.ok ("<td style=\"width:" ++ toString (count * psize)
              ++ "px;\" class=\"" ++ clazz ++ "\"/>\n")
          else
            Except.ok ("<td style=\"width:" ++ toString (count * psize)
              ++ "px;\" class=\"" ++ clazz ++ "\" colspan=\""
              ++ toString count ++ "\"/>\n")

/-- One `<tr>` of the CSS branch (lines 168-180). -/
def renderRowCss (palette : List (Option RGB × String)) (psize : Nat)
    (row : List Item) : Except PyErr String :=
  match row.mapM (tdCss palette psize) with
  | Except.error e => Except.error e
  | Except.ok cells => Except.ok ("<tr>\n" ++ String.join cells ++ "</tr>\n")

/-- One palette rule of the generated stylesheet (lines 189-190):
`'table#{} td.{} {{background:{}; }}\n'`.  Note `rgb_to_html(colour)` is
called on the dict key, which is `None` for the degenerate `(0, None)` run
of a zero-width row, raising `TypeError` there. -/
def cssLine (uid : String) (kv : Option RGB × String) : Except PyErr String :=
  match rgbOpt_to_html kv.1 with
  | Except.error e => Except.error e
  | Except.ok col =>
      Except.ok ("table#" ++ uid ++ " td." ++ kv.2 ++ " \x7bbackground:"
        ++ col ++ "; \x7d\n")

/-- `rowlist_to_html_css` (lines 112-192): palette, row grouping, then
either the pure-HTML branch or the HTML+CSS branch. -/
def rowlist_to_html_css (rowlist : List Item) (no_css : Bool)
    (pixel_size : Nat) (uid : String) : Except PyErr (String × String) :=
  match _to_palette rowlist with
  | Except.error e => Except.error e
  | Except.ok palette =>
    let prows := pageRows rowlist
    if no_css then
      match prows.mapM (renderRowNoCss pixel_size) with
      | Except.error e => Except.error e
      | Except.ok rows =>
          Except.ok
            ("<table style=\"table-layout:fixed;border:0;border-spacing:0;\">\n"
              ++ String.join rows ++ "</table>\n", "")
    else
      match prows.mapM (renderRowCss palette pixel_size) with
      | Except.error e => Except.error e
      | Except.ok rows =>
          match palette.mapM (cssLine uid) with
          | Except.error e => Except.error e
          | Except.ok cssLines =>
              Except.ok
                ("<table style=\"table-layout:fixed;border:0;border-spacing:0;\" id=\""
                    ++ uid ++ "\">\n" ++ String.join rows ++ "</table>\n",
                  "table#" ++ uid ++ " tr\x7bline-height:"
                    ++ toString pixel_size ++ "px;\x7d\n"
                    ++ String.join cssLines)

/-- Number of (possibly overlapping) occurrences of `pat` in a character
list; used to count `<td` / `<tr` / `<table` openings in emitted markup. -/
def countSub (pat : List Char) : List Char → Nat
  | [] => 0
  | c :: rest =>
      (if (c :: rest).take pat.length = pat then 1 else 0) + countSub pat rest

def tdPat : List Char := ['<', 't', 'd']

def trPat : List Char := ['<', 't', 'r']

/-
The `RowDivider` sentinel of `data.py` (lines 15-23), modelled against the
universe of values it actually meets in a rowlist: other `RowDivider`
instances and `(count, colour)` tuples.  Instances are distinguished by an
address so that "every two instances" is expressible.
-/

inductive PyVal where
  | rowDividerInst (addr : Nat)
  | runPair (count : Nat) (colour : Option RGB)

/-- `RowDivider.__eq__(self, other)`: `isinstance(other, RowDivider)`. -/
def rowDividerEq (_self : Nat) : PyVal → Bool
  | PyVal.rowDividerInst _ => true
  | PyVal.runPair _ _ => false

/-- `id(RowDivider)`: the CPython address of the class object itself — one
fixed value for the whole program run, independent of the instance. -/
def rowDividerClassId : Nat := 0

/-- `RowDivider.__hash__(self)`: `id(RowDivider)`, ignoring `self`. -/
def rowDividerHash (_self : Nat) : Nat := rowDividerClassId

/-- Python `==` between the values of a rowlist.  A `RowDivider` on the left
dispatches to `RowDivider.__eq__`; `tuple == RowDivider` first returns
`NotImplemented` from `tuple.__eq__`, then the reflected
`RowDivider.__eq__(divider, tuple)` runs its `isinstance` check and returns
`False`; two tuples compare componentwise. -/
def pyEq : PyVal → PyVal → Bool
  | PyVal.rowDividerInst a, other => rowDividerEq a other
  | PyVal.runPair c1 k1, PyVal.rowDividerInst a => rowDividerEq a (PyVal.runPair c1 k1)
  | PyVal.runPair c1 k1, PyVal.runPair c2 k2 => decide (c1 = c2) && decide (k1 = k2)

theorem lookupA_addRun {κ : Type} [DecidableEq κ]
    (acc : List (κ × Nat)) (k q : κ) (n : Nat) :
    lookupA (addRun acc k n) q =
      if q = k then some ((lookupA acc k).getD 0 + n) else lookupA acc q := by
  induction acc with
  | nil =>
      by_cases hq : q = k
      · subst hq; simp [addRun, lookupA]
      · simp [addRun, lookupA, hq, Ne.symm hq]
  | cons p rest ih =>
      by_cases hp : p.1 = k
      · by_cases hq : q = k
        · subst hq; simp [addRun, lookupA, hp]
        · have hpq : p.1 ≠ q := by rw [hp]; exact Ne.symm hq
          simp [addRun, lookupA, hp, hq, hpq, Ne.symm hq]
      · by_cases hq : q = k
        · subst hq; simp [addRun, lookupA, hp, ih]
        · by_cases hpq : p.1 = q
          · simp [addRun, lookupA, hp, hq, hpq]
          · simp [addRun, lookupA, hp, hq, hpq, ih]

theorem lookupA_paletteFold (items : List Item) :
    ∀ (acc : List (Option RGB × Nat)) (k : Option RGB),
      lookupA (items.foldl paletteStep acc) k =
        match lookupA acc k with
        | some v => some (v + runCountTotal k items)
        | none =>
            if appearsInRun k items then some (runCountTotal k items)
            else none := by
  induction items with
  | nil =>
      intro acc k
      cases hacc : lookupA acc k <;> simp [runCountTotal, appearsInRun, hacc]
  | cons it rest ih =>
      intro acc k
      cases it with
      | divider =>
          rw [List.foldl_cons]
          have hstep : paletteStep acc Item.divider = acc := rfl
          rw [hstep, ih acc k]
          cases hacc : lookupA acc k <;>
            simp [hacc, runCountTotal, appearsInRun]
      | run n col =>
          rw [List.foldl_cons]
          have hstep : paletteStep acc (Item.run n col) = addRun acc col n := rfl
          rw [hstep, ih (addRun acc col n) k, lookupA_addRun]
          by_cases hk : k = col
          · subst hk
            cases hacc : lookupA acc k <;>
              simp [hacc, runCountTotal, appearsInRun, Nat.add_assoc]
          · cases hacc : lookupA acc k <;>
              simp [hacc, hk, runCountTotal, appearsInRun]

/-- C9: the `count` dict that `_to_palette` builds and feeds to `_encoding`
maps a colour that occurs in some run to the sum of the counts of all runs
of that colour across the whole rowlist; `RowDivider` entries contribute
nothing; a colour occurring in no run has no entry at all. -/
theorem claim_C9_palette_weights (rowlist : List Item) (k : Option RGB) :
    lookupA (paletteCount rowlist) k =
      if appearsInRun k rowlist then some (runCountTotal k rowlist)
      else none := by
  have h := lookupA_paletteFold rowlist [] k
  simpa [paletteCount, lookupA] using h

/-- C1: on any weight table with at least two keys — here `{0: 1, 1: 1}`
with the binary alphabet — `_encoding` does not return a code mapping at
all: `queue = queue.sort(...)` rebinds the queue to `None` (Python's
`list.sort` returns `None`) and the `len(queue)` on the next line raises
`TypeError`, so no prefix-free mapping is ever produced. -/
theorem claim_C1_encoding_crashes :
    _encoding [((0 : Nat), 1), ((1 : Nat), 1)] ['0', '1'] =
      Except.error PyErr.typeError := rfl

/-- C3: evaluating `rgb_to_html` at the three inputs named by the claim:
`hex()` is not zero-padded, so `(255, 0, 84)` yields the five-digit
`"#ff054"` (the claim expects `"#ff0054"`) and `(-5, 260, 10)` clamps to
`(0, 255, 10)` but yields `"#0ffa"` (the claim expects `"#00ff0a"`);
only `(255, 255, 255) ↦ "#fff"` behaves as claimed. -/
theorem claim_C3_rgb_to_html_eval :
    rgb_to_html (255, 0, 84) = Except.ok "#ff054" ∧
    rgb_to_html (255, 255, 255) = Except.ok "#fff" ∧
    rgb_to_html (-5, 260, 10) = Except.ok "#0ffa" :=
  ⟨rfl, rfl, rfl⟩

/-- C6: `_encoding` contains no alphabet-size validation at all.  With the
one-symbol alphabet `"a"` and the single-key table `{0: 5}`, no
configuration failure is signalled: the merge loop is skipped and a code
mapping is returned (assigning the empty code). -/
theorem claim_C6_no_alphabet_validation :
    _encoding [((0 : Nat), 5)] ['a'] = Except.ok [((0 : Nat), "")] := rfl

/-- C7 counterexample: a weight table with exactly one key and the binary
alphabet.  `while len(queue) > 1` never runs for a single node, so the key
is assigned the untouched empty code, whose length is 0, not 1. -/
theorem claim_C7_counterexample :
    _encoding [((0 : Nat), 7)] ['0', '1'] = Except.ok [((0 : Nat), "")] ∧
    ("" : String).length ≠ 1 :=
  ⟨rfl, by decide⟩

/-- C7 amended: for every weight table containing exactly one key and every
alphabet of size ≥ 2 after deduplication, `_encoding` assigns that key the
empty code (length zero): the merge loop requires more than one queue entry
to run even once. -/
theorem claim_C7_amended (k w : Nat) (alphabet : List Char)
    (_halpha : 2 ≤ (dedup alphabet).length) :
    _encoding [(k, w)] alphabet = Except.ok [(k, "")] := rfl

theorem claim_C7_witness :
    2 ≤ (dedup ['0', '1']).length ∧
    _encoding [((3 : Nat), 5)] ['0', '1'] = Except.ok [((3 : Nat), "")] :=
  ⟨by decide, claim_C7_amended 3 5 ['0', '1'] (by decide)⟩

/-- C10: any two `RowDivider` instances compare equal (`__eq__` is just an
`isinstance` check) and share one hash value (`__hash__` returns
`id(RowDivider)`, the address of the class object, for every instance);
a `RowDivider` never compares equal to a `(count, colour)` run tuple in
either direction. -/
theorem claim_C10_rowdivider_equality (a b cnt : Nat) (col : Option RGB) :
    pyEq (PyVal.rowDividerInst a) (PyVal.rowDividerInst b) = true ∧
    rowDividerHash a = rowDividerHash b ∧
    pyEq (PyVal.rowDividerInst a) (PyVal.runPair cnt col) = false ∧
    pyEq (PyVal.runPair cnt col) (PyVal.rowDividerInst a) = false :=
  ⟨rfl, rfl, rfl, rfl⟩

/-- C2: evaluating `rowlist_to_html_css` in inline (`no_css`) mode on a
one-run, one-row rowlist with `pixel_size = 3`.  The output contains the
one `<tr>` for the row but ZERO `<td>` cells — `currow = []` stands inside
the grouping loop, so the run is discarded and the grouped row is empty —
where the claim demands exactly one `<td>` of width 3 for the single run. -/
theorem claim_C2_rows_lose_their_cells :
    ∃ out,
      rowlist_to_html_css
          [Item.run 1 (some ((0 : Int), (0 : Int), (0 : Int))), Item.divider]
          true 3 "x" = Except.ok out ∧
      out.2 = "" ∧
      countSub tdPat out.1.toList = 0 ∧
      countSub trPat out.1.toList = 1 :=
  ⟨_, rfl, rfl, by decide, by decide⟩

/-- C8: a zero-width surface of height 1.  `getcontiguousrows` does NOT
return an empty run sequence: the unconditional flush after the row loop
appends the degenerate `(0, None)` run besides the `RowDivider`.  Feeding
that output to `rowlist_to_html_css` in its default CSS mode raises
`TypeError` (iterating the `None` colour inside `rgb_to_html`), so the
operation errors rather than producing an empty table. -/
theorem claim_C8_zero_width_not_empty :
    getcontiguousrows (Surface.mk 0 1 (fun _ _ => ((0 : Int), (0 : Int), (0 : Int)))) =
      [Item.run 0 none, Item.divider] ∧
    rowlist_to_html_css [Item.run 0 none, Item.divider] false 3 "x" =
      Except.error PyErr.typeError :=
  ⟨rfl, rfl⟩
